import Mathlib

/-!
Shallow embedding of the scoring and level-gating engine of the
agent-readiness scanner (the Level Summarizer, the Level Gate, the Pillar
Summarizer and the Overall Scorer), together with proofs of the spec's
properties about them.

The repository contains two copies of the gating module.  Except for
`determineAchievedLevel` the two copies are line-for-line identical, so a
single Lean definition embeds both.  The two `determineAchievedLevel`
variants differ (previous-level threshold vs current-level threshold) and
are embedded separately as `determineAchievedLevelPrev` (the copy whose
gate reads the PREVIOUS level's pass ratio) and `determineAchievedLevelCurr`
(the copy whose gate reads the CURRENT level's pass ratio).

JavaScript numeric details are embedded over exact arithmetic:
`Math.round(x)` for the non-negative arguments arising here is
`floor (x + 1/2)`, captured on the rational `p/t * 100` by the natural
number expression `(200*p + t) / (2*t)`; the float comparison
`ratio >= 0.8` is captured by the exact comparison `4*total <= 5*passed`.
Descriptive metadata fields of a check result (`message`, `matched_files`,
`suggestions`) are not consumed by any engine decision and are omitted
from the embedded record.
-/

/-- The five ordered maturity levels `L1 .. L5`. -/
inductive Level where
  | L1 | L2 | L3 | L4 | L5
deriving DecidableEq

/-- The ordered level sequence, the constant `LEVELS` of the source. -/
def LEVELS : List Level := [.L1, .L2, .L3, .L4, .L5]

/-- Position of a level in the ordered sequence (L1 at 0, L5 at 4). -/
def lvlIdx : Level → Nat
  | .L1 => 0
  | .L2 => 1
  | .L3 => 2
  | .L4 => 3
  | .L5 => 4

/-- The level immediately below a given level, none for L1. -/
def levelPred : Level → Option Level
  | .L1 => none
  | .L2 => some .L1
  | .L3 => some .L2
  | .L4 => some .L3
  | .L5 => some .L4

/-- The nine fixed pillars of the source type module. -/
inductive Pillar where
  | docs | style | build | test | security | observability
  | env | task_discovery | product
deriving DecidableEq

/-- The pillar list constant `PILLARS` of the source. -/
def PILLARS : List Pillar :=
  [.docs, .style, .build, .test, .security, .observability,
   .env, .task_discovery, .product]

/-- Display labels, the constant `PILLAR_NAMES` of the source. -/
def PILLAR_NAMES : Pillar → String
  | .docs => "Documentation"
  | .style => "Code Style"
  | .build => "Build System & CI/CD"
  | .test => "Testing"
  | .security => "Security"
  | .observability => "Observability"
  | .env => "Environment"
  | .task_discovery => "Task Discovery"
  | .product => "Product & Experimentation"

/-- Outcome of one atomic check (decision-relevant fields only). -/
structure CheckResult where
  check_id : String
  pillar : Pillar
  level : Level
  passed : Bool
  required : Bool
deriving DecidableEq

/-- Aggregate for one level, the `LevelSummary` record of the source. -/
structure LevelSummary where
  level : Level
  achieved : Bool
  score : Nat
  checks_passed : Nat
  checks_total : Nat
  required_passed : Nat
  required_total : Nat
deriving DecidableEq

/-- Aggregate for one pillar, the `PillarSummary` record of the source. -/
structure PillarSummary where
  pillar : Pillar
  name : String
  level_achieved : Option Level
  score : Nat
  checks_passed : Nat
  checks_total : Nat
  failed_checks : List String
deriving DecidableEq

/-- Embedding of `Math.round ((p / t) * 100)` for natural `p` and positive
natural `t`: JavaScript rounds half away from zero, which on non-negative
arguments is `floor (x + 1/2)`, and `p/t*100 + 1/2 = (200*p + t)/(2*t)`. -/
def mathRound100 (p t : Nat) : Nat := (200 * p + t) / (2 * t)

/-- Embedding of `calculateLevelSummaries` (identical in both copies of the
module) at one level: filter the results to the level, count totals, passes
and required passes, compute the rounded score (0 on an empty level) and the
local achieved flag. -/
def calculateLevelSummaries (results : List CheckResult) (level : Level) :
    LevelSummary :=
  let levelResults := results.filter (fun r => r.level == level)
  let totalCount := levelResults.length
  let passedCount := (levelResults.filter (fun r => r.passed)).length
  let requiredResults := levelResults.filter (fun r => r.required)
  let requiredPassed := (requiredResults.filter (fun r => r.passed)).length
  let requiredTotal := requiredResults.length
  let score := if 0 < totalCount then mathRound100 passedCount totalCount else 0
  let allRequiredPass := requiredPassed == requiredTotal
  let meetsThreshold := totalCount == 0 || decide (4 * totalCount ≤ 5 * passedCount)
  { level := level
    achieved := allRequiredPass && meetsThreshold
    score := score
    checks_passed := passedCount
    checks_total := totalCount
    required_passed := requiredPassed
    required_total := requiredTotal }

/-- The shared loop shape of the three sequential gates: walk the remaining
levels in order carrying the previous level and the highest level achieved
so far; an empty level (by the `t` count) is auto-achieved when something is
already achieved or it is L1, otherwise the walk stops; a non-empty level is
achieved when the `pass` condition holds, otherwise the walk stops. -/
def gateWalk (t : Level → Nat) (pass : Option Level → Level → Bool) :
    List Level → Option Level → Option Level → Option Level
  | [], _, highest => highest
  | l :: rest, prev, highest =>
    if t l = 0 then
      if highest.isSome || l == Level.L1 then
        gateWalk t pass rest (some l) (some l)
      else highest
    else if pass prev l then
      gateWalk t pass rest (some l) (some l)
    else highest

/-- The previous-level threshold condition of the first module copy: true
when there is no previous level, when the previous level has no checks, or
when at least 80% of the previous level's checks passed. -/
def prevGateB (s : Level → LevelSummary) : Option Level → Bool
  | none => true
  | some p =>
    (s p).checks_total == 0 ||
      decide (4 * (s p).checks_total ≤ 5 * (s p).checks_passed)

/-- Achievement condition of the previous-level variant at a non-empty
level: all required checks at the level pass and the previous-level gate
passes. -/
def passPrev (s : Level → LevelSummary) (prev : Option Level) (l : Level) :
    Bool :=
  ((s l).required_passed == (s l).required_total) && prevGateB s prev

/-- Achievement condition of the current-level variant at a non-empty
level: all required checks at the level pass and at least 80% of the
level's own checks pass. -/
def passCurr (s : Level → LevelSummary) (_prev : Option Level) (l : Level) :
    Bool :=
  ((s l).required_passed == (s l).required_total) &&
    decide (4 * (s l).checks_total ≤ 5 * (s l).checks_passed)

/-- Embedding of `determineAchievedLevel` from the module copy that gates on
the PREVIOUS level's pass ratio (the copy preserved under `src/unnamed`). -/
def determineAchievedLevelPrev (s : Level → LevelSummary) : Option Level :=
  gateWalk (fun l => (s l).checks_total) (passPrev s) LEVELS none none

/-- Embedding of `determineAchievedLevel` from the module copy that gates on
the CURRENT level's pass ratio (the copy bundled in `git-freshness.ts`). -/
def determineAchievedLevelCurr (s : Level → LevelSummary) : Option Level :=
  gateWalk (fun l => (s l).checks_total) (passCurr s) LEVELS none none

/-- Achievement condition of `determinePillarLevel` at a non-empty level of
the given pillar-restricted result list: all required checks at the level
pass, and the previous level (within the same list) is empty or at least
80% of its checks passed. -/
def passPillar (results : List CheckResult) (prev : Option Level) (l : Level) :
    Bool :=
  let levelResults := results.filter (fun r => r.level == l)
  let requiredResults := levelResults.filter (fun r => r.required)
  let allRequiredPass :=
    (requiredResults.filter (fun r => r.passed)).length == requiredResults.length
  let prevResults :=
    match prev with
    | none => ([] : List CheckResult)
    | some p => results.filter (fun r => r.level == p)
  let prevGatePasses :=
    prevResults.length == 0 ||
      decide (4 * prevResults.length ≤
        5 * (prevResults.filter (fun r => r.passed)).length)
  allRequiredPass && prevGatePasses

/-- Embedding of `determinePillarLevel` (identical in both copies of the
module): the sequential walk over a pillar's own result list, always with
the previous-level threshold. -/
def determinePillarLevel (results : List CheckResult) : Option Level :=
  gateWalk (fun l => (results.filter (fun r => r.level == l)).length)
    (passPillar results) LEVELS none none

/-- Embedding of `calculatePillarSummaries` (identical in both copies of the
module) at one pillar: filter to the pillar, count, list the failed check
ids in input order, score (100 on an empty pillar) and the per-pillar
achieved level. -/
def calculatePillarSummaries (results : List CheckResult) (pillar : Pillar) :
    PillarSummary :=
  let pillarResults := results.filter (fun r => r.pillar == pillar)
  let totalCount := pillarResults.length
  let passedCount := (pillarResults.filter (fun r => r.passed)).length
  let failedChecks :=
    (pillarResults.filter (fun r => !r.passed)).map (fun r => r.check_id)
  let score := if 0 < totalCount then mathRound100 passedCount totalCount else 100
  { pillar := pillar
    name := PILLAR_NAMES pillar
    level_achieved := determinePillarLevel pillarResults
    score := score
    checks_passed := passedCount
    checks_total := totalCount
    failed_checks := failedChecks }

/-- Embedding of `calculateOverallScore` (identical in both copies of the
module): 0 on the empty list, otherwise the rounded flat pass percentage. -/
def calculateOverallScore (results : List CheckResult) : Nat :=
  if results.length = 0 then 0
  else mathRound100 (results.filter (fun r => r.passed)).length results.length

/-- A level is achieved in a gate outcome when the outcome names it or a
higher level (the sequential gates achieve exactly the levels up to the
returned one). -/
def achievedIn (r : Option Level) (L : Level) : Prop :=
  ∃ M, r = some M ∧ lvlIdx L ≤ lvlIdx M

instance (r : Option Level) (L : Level) : Decidable (achievedIn r L) :=
  match r with
  | none => isFalse (by rintro ⟨M, hM, _⟩; cases hM)
  | some M =>
    if h : lvlIdx L ≤ lvlIdx M then isTrue ⟨M, rfl, h⟩
    else isFalse (by rintro ⟨M', hM', hle⟩; cases hM'; exact h hle)

/-- The per-level condition under which the sequential walk continues past a
level it has reached: the level is empty (by the walk's count) or the pass
condition holds with the level's predecessor as the previous level. -/
def stepOk (t : Level → Nat) (pass : Option Level → Level → Bool)
    (l : Level) : Prop :=
  t l = 0 ∨ pass (levelPred l) l = true

instance (t : Level → Nat) (pass : Option Level → Level → Bool) (l : Level) :
    Decidable (stepOk t pass l) := by
  unfold stepOk; infer_instance

/-- The conjunction of the per-level continue conditions at a level and all
levels below it. -/
def okUpTo (t : Level → Nat) (pass : Option Level → Level → Bool) :
    Level → Prop
  | .L1 => stepOk t pass .L1
  | .L2 => stepOk t pass .L1 ∧ stepOk t pass .L2
  | .L3 => stepOk t pass .L1 ∧ stepOk t pass .L2 ∧ stepOk t pass .L3
  | .L4 => stepOk t pass .L1 ∧ stepOk t pass .L2 ∧ stepOk t pass .L3 ∧
      stepOk t pass .L4
  | .L5 => stepOk t pass .L1 ∧ stepOk t pass .L2 ∧ stepOk t pass .L3 ∧
      stepOk t pass .L4 ∧ stepOk t pass .L5

instance (t : Level → Nat) (pass : Option Level → Level → Bool) (L : Level) :
    Decidable (okUpTo t pass L) := by
  cases L <;> (unfold okUpTo; infer_instance)

/-- A worked example input: two L1 checks both passing (one required) and
five L2 checks of which three pass (the required one among them). -/
def exResults : List CheckResult :=
  [⟨"docs.a", .docs, .L1, true, true⟩, ⟨"docs.b", .docs, .L1, true, false⟩,
   ⟨"test.a", .test, .L2, true, true⟩, ⟨"test.b", .test, .L2, true, false⟩,
   ⟨"test.c", .test, .L2, true, false⟩, ⟨"test.d", .test, .L2, false, false⟩,
   ⟨"test.e", .test, .L2, false, false⟩]

/-- A single required L1 check that fails. -/
def exFail : List CheckResult :=
  [⟨"docs.readme", .docs, .L1, false, true⟩]

/-- Level summaries on which the two gate variants disagree: L1 holds five
checks of which three pass and none is required, all other levels empty. -/
def sDiv : Level → LevelSummary := fun l =>
  match l with
  | .L1 => ⟨.L1, false, 60, 3, 5, 0, 0⟩
  | _ => ⟨l, true, 0, 0, 0, 0, 0⟩

/-- A passing required L1 check and a failing required L2 check: the
previous-level gate stops at L2 with L1 achieved and non-empty. -/
def exMixed : List CheckResult :=
  [⟨"docs.a", .docs, .L1, true, true⟩, ⟨"test.a", .test, .L2, false, true⟩]

/-- Number of the given results at a level. -/
def countAtLevel (results : List CheckResult) (l : Level) : Nat :=
  results.countP (fun r => r.level == l)

/-- Number of the given results at a level that passed. -/
def passedAtLevel (results : List CheckResult) (l : Level) : Nat :=
  results.countP (fun r => r.level == l && r.passed)

/-- The spec's per-level condition for the pillar gate (§4.3, Variant B,
previous-level-score gate): the pillar has no checks at the level, or all
its required checks at the level pass and the previous level either has no
checks in this pillar or at least 80% of them passed. -/
def pillarStepSpec (results : List CheckResult) (l : Level) : Prop :=
  countAtLevel results l = 0 ∨
  ((∀ r ∈ results, r.level = l → r.required = true → r.passed = true) ∧
    (match levelPred l with
     | none => True
     | some p => countAtLevel results p = 0 ∨
         (4 : ℚ) / 5 ≤ (passedAtLevel results p : ℚ) /
           countAtLevel results p))

/-- One step of the walk continues (achieving the level) when the level is
empty or its pass condition holds, provided something is already achieved or
the level is L1. -/
theorem gateWalk_cons_cont (t : Level → Nat) (pass : Option Level → Level → Bool)
    (l : Level) (rest : List Level) (prev highest : Option Level)
    (hok : t l = 0 ∨ pass prev l = true)
    (hh : highest.isSome = true ∨ l = Level.L1) :
    gateWalk t pass (l :: rest) prev highest =
      gateWalk t pass rest (some l) (some l) := by
  rcases hok with h0 | hp
  · simp [gateWalk, h0]
    intro hnone hne
    rcases hh with hs | hs
    · rw [hnone] at hs; cases hs
    · exact absurd hs hne
  · by_cases h0 : t l = 0
    · simp [gateWalk, h0]
      intro hnone hne
      rcases hh with hs | hs
      · rw [hnone] at hs; cases hs
      · exact absurd hs hne
    · simp [gateWalk, h0, hp]

/-- One step of the walk stops (returning the highest level so far) when the
level is non-empty and its pass condition fails. -/
theorem gateWalk_cons_stop (t : Level → Nat) (pass : Option Level → Level → Bool)
    (l : Level) (rest : List Level) (prev highest : Option Level)
    (h0 : t l ≠ 0) (hp : pass prev l = false) :
    gateWalk t pass (l :: rest) prev highest = highest := by
  simp [gateWalk, h0, hp]

/-- Closed form of the sequential walk over the full level sequence: the
result is the last level of the longest prefix of L1..L5 all of whose
per-level conditions hold, or none when already L1's condition fails. -/
theorem gateWalk_levels_eq (t : Level → Nat) (pass : Option Level → Level → Bool) :
    gateWalk t pass LEVELS none none =
      if stepOk t pass .L1 then
        if stepOk t pass .L2 then
          if stepOk t pass .L3 then
            if stepOk t pass .L4 then
              if stepOk t pass .L5 then some .L5 else some .L4
            else some .L3
          else some .L2
        else some .L1
      else none := by
  have step : ∀ (l : Level) (rest : List Level) (h : Option Level),
      h.isSome = true ∨ l = Level.L1 →
      gateWalk t pass (l :: rest) (levelPred l) h =
        if stepOk t pass l then gateWalk t pass rest (some l) (some l) else h := by
    intro l rest h hh
    by_cases hok : stepOk t pass l
    · rw [if_pos hok]
      exact gateWalk_cons_cont t pass l rest (levelPred l) h hok hh
    · rw [if_neg hok]
      unfold stepOk at hok
      push_neg at hok
      exact gateWalk_cons_stop t pass l rest (levelPred l) h hok.1
        (by simpa using hok.2)
  show gateWalk t pass [.L1, .L2, .L3, .L4, .L5] none none = _
  rw [show (none : Option Level) = levelPred .L1 from rfl,
    step .L1 _ (levelPred .L1) (Or.inr rfl)]
  by_cases h1 : stepOk t pass .L1
  · rw [if_pos h1, if_pos h1,
      show (some Level.L1 : Option Level) = levelPred .L2 from rfl,
      step .L2 _ (levelPred .L2) (Or.inl rfl)]
    by_cases h2 : stepOk t pass .L2
    · rw [if_pos h2, if_pos h2,
        show (some Level.L2 : Option Level) = levelPred .L3 from rfl,
        step .L3 _ (levelPred .L3) (Or.inl rfl)]
      by_cases h3 : stepOk t pass .L3
      · rw [if_pos h3, if_pos h3,
          show (some Level.L3 : Option Level) = levelPred .L4 from rfl,
          step .L4 _ (levelPred .L4) (Or.inl rfl)]
        by_cases h4 : stepOk t pass .L4
        · rw [if_pos h4, if_pos h4,
            show (some Level.L4 : Option Level) = levelPred .L5 from rfl,
            step .L5 _ (levelPred .L5) (Or.inl rfl)]
          by_cases h5 : stepOk t pass .L5
          · rw [if_pos h5, if_pos h5]; rfl
          · rw [if_neg h5, if_neg h5]
        · rw [if_neg h4, if_neg h4]
      · rw [if_neg h3, if_neg h3]
    · rw [if_neg h2, if_neg h2]
  · rw [if_neg h1, if_neg h1]

/-- Characterization of the sequential walk: a level is achieved in the
outcome exactly when the per-level continue condition holds at it and at
every level below it. -/
theorem achievedIn_gateWalk (t : Level → Nat)
    (pass : Option Level → Level → Bool) (L : Level) :
    achievedIn (gateWalk t pass LEVELS none none) L ↔ okUpTo t pass L := by
  rw [gateWalk_levels_eq]
  split_ifs with h1 h2 h3 h4 h5 <;>
    cases L <;> simp [achievedIn, lvlIdx, okUpTo] <;> tauto

/-- The conjunction chain is the bounded universal over level positions. -/
theorem okUpTo_iff_forall (t : Level → Nat)
    (pass : Option Level → Level → Bool) (L : Level) :
    okUpTo t pass L ↔ ∀ M, lvlIdx M ≤ lvlIdx L → stepOk t pass M := by
  cases L <;> simp only [okUpTo] <;> constructor <;> intro h
  all_goals
    first
    | (intro M hM
       cases M <;>
         first
         | exact h
         | exact h.1
         | exact h.2
         | exact h.2.1
         | exact h.2.2
         | exact h.2.2.1
         | exact h.2.2.2
         | exact h.2.2.2.1
         | exact h.2.2.2.2
         | exact absurd hM (by decide))
    | exact ⟨h _ (by decide), h _ (by decide), h _ (by decide),
        h _ (by decide), h _ (by decide)⟩
    | exact ⟨h _ (by decide), h _ (by decide), h _ (by decide),
        h _ (by decide)⟩
    | exact ⟨h _ (by decide), h _ (by decide), h _ (by decide)⟩
    | exact ⟨h _ (by decide), h _ (by decide)⟩
    | exact h _ (by decide)

/-- The exact 80% comparison: for a non-empty denominator, the pass ratio is
at least 4/5 exactly when `4 * total <= 5 * passed`. -/
theorem ratio_ge_iff (p t : Nat) (ht : t ≠ 0) :
    ((4 : ℚ) / 5 ≤ (p : ℚ) / t) ↔ 4 * t ≤ 5 * p := by
  have ht0 : (0 : ℚ) < t := by exact_mod_cast Nat.pos_of_ne_zero ht
  rw [div_le_div_iff₀ (by norm_num) ht0, mul_comm (p : ℚ) 5]
  exact_mod_cast Iff.rfl

/-- The natural-number rounding expression agrees with rounding the exact
rational percentage half up. -/
theorem mathRound100_eq_round (p t : Nat) (ht : t ≠ 0) :
    (mathRound100 p t : ℤ) = round ((p : ℚ) / t * 100) := by
  have ht0 : (t : ℚ) ≠ 0 := Nat.cast_ne_zero.mpr ht
  rw [round_eq]
  have h1 : (p : ℚ) / t * 100 + 1 / 2 =
      ((200 * p + t : ℕ) : ℚ) / ((2 * t : ℕ) : ℚ) := by
    push_cast
    field_simp
    ring
  rw [h1, Rat.floor_natCast_div_natCast, ← Int.natCast_div]
  rfl

/-- Length of a twice-filtered list as a single conjunctive count. -/
theorem length_filter₂ {α : Type} (p q : α → Bool) (l : List α) :
    ((l.filter p).filter q).length = l.countP (fun a => p a && q a) := by
  rw [List.filter_filter, List.countP_eq_length_filter]
  exact congrArg List.length
    (List.filter_congr fun a _ => by cases p a <;> cases q a <;> rfl)

/-- Length of a thrice-filtered list as a single conjunctive count. -/
theorem length_filter₃ {α : Type} (p q w : α → Bool) (l : List α) :
    (((l.filter p).filter q).filter w).length =
      l.countP (fun a => p a && q a && w a) := by
  rw [List.filter_filter, List.filter_filter, List.countP_eq_length_filter]
  exact congrArg List.length
    (List.filter_congr fun a _ => by
      cases p a <;> cases q a <;> cases w a <;> rfl)

/-- C6: for every list of check results and every level, the Level
Summarizer produces checks_total = number of results at that level,
checks_passed = number of those that passed, required_total and
required_passed analogously restricted to required checks, score the
rounded pass percentage with 0 on an empty level, and a local achieved
flag that is true exactly when all required checks pass and the level is
empty or its pass ratio is at least 80%. -/
theorem c6_level_summarizer_postcondition (results : List CheckResult)
    (L : Level) :
    let s := calculateLevelSummaries results L
    s.checks_total = results.countP (fun r => r.level == L) ∧
    s.checks_passed = results.countP (fun r => r.level == L && r.passed) ∧
    s.required_total = results.countP (fun r => r.level == L && r.required) ∧
    s.required_passed =
      results.countP (fun r => r.level == L && r.required && r.passed) ∧
    (s.checks_total = 0 → s.score = 0) ∧
    (s.checks_total ≠ 0 →
      (s.score : ℤ) = round ((s.checks_passed : ℚ) / s.checks_total * 100)) ∧
    (s.achieved = true ↔
      s.required_passed = s.required_total ∧
      (s.checks_total = 0 ∨
        (4 : ℚ) / 5 ≤ (s.checks_passed : ℚ) / s.checks_total)) := by
  dsimp only
  refine ⟨?_, ?_, ?_, ?_, ?_, ?_, ?_⟩
  · simp [calculateLevelSummaries, List.countP_eq_length_filter]
  · simp only [calculateLevelSummaries]
    exact length_filter₂ _ _ _
  · simp only [calculateLevelSummaries]
    exact length_filter₂ _ _ _
  · simp only [calculateLevelSummaries]
    exact length_filter₃ _ _ _ _
  · intro h0
    simp only [calculateLevelSummaries] at h0 ⊢
    simp [h0]
  · intro h0
    simp only [calculateLevelSummaries] at h0 ⊢
    rw [if_pos (Nat.pos_of_ne_zero h0)]
    exact mathRound100_eq_round _ _ h0
  · simp only [calculateLevelSummaries, Bool.and_eq_true, beq_iff_eq,
      Bool.or_eq_true, decide_eq_true_eq, Nat.beq_eq_true_eq]
    constructor
    · rintro ⟨h1, h2⟩
      refine ⟨h1, ?_⟩
      rcases h2 with h2 | h2
      · exact Or.inl h2
      · by_cases h0 : (results.filter (fun r => r.level == L)).length = 0
        · exact Or.inl h0
        · exact Or.inr ((ratio_ge_iff _ _ h0).mpr h2)
    · rintro ⟨h1, h2⟩
      refine ⟨h1, ?_⟩
      rcases h2 with h2 | h2
      · exact Or.inl h2
      · by_cases h0 : (results.filter (fun r => r.level == L)).length = 0
        · exact Or.inl h0
        · exact Or.inr ((ratio_ge_iff _ _ h0).mp h2)

/-- C9: the Overall Scorer returns 0 on the empty list, otherwise the
rounded flat pass percentage over the whole list, and it depends only on
the total count and the passed count, not on the level or pillar
distribution. -/
theorem c9_overall_scorer :
    calculateOverallScore [] = 0 ∧
    (∀ results : List CheckResult, results ≠ [] →
      (calculateOverallScore results : ℤ) =
        round ((results.countP (fun r => r.passed) : ℚ) /
          results.length * 100)) ∧
    (∀ rs1 rs2 : List CheckResult, rs1.length = rs2.length →
      rs1.countP (fun r => r.passed) = rs2.countP (fun r => r.passed) →
      calculateOverallScore rs1 = calculateOverallScore rs2) := by
  refine ⟨rfl, ?_, ?_⟩
  · intro results h
    have hl : results.length ≠ 0 := fun hh => h (List.length_eq_zero.mp hh)
    rw [calculateOverallScore, if_neg hl, List.countP_eq_length_filter]
    exact mathRound100_eq_round _ _ hl
  · intro rs1 rs2 hlen hcnt
    simp only [calculateOverallScore, ← List.countP_eq_length_filter,
      hlen, hcnt]

/-- C8: the Pillar Summarizer's score is the rounded pass percentage over
the pillar's checks but 100 (not 0) on a pillar with zero checks, and
failed_checks is exactly the list of check ids of the pillar's failed
checks in input order. -/
theorem c8_pillar_score_asymmetry (results : List CheckResult) (p : Pillar) :
    let s := calculatePillarSummaries results p
    (s.checks_total = 0 → s.score = 100) ∧
    (s.checks_total ≠ 0 →
      (s.score : ℤ) = round ((s.checks_passed : ℚ) / s.checks_total * 100)) ∧
    s.failed_checks =
      (results.filter (fun r => r.pillar == p && !r.passed)).map
        (fun r => r.check_id) := by
  dsimp only
  refine ⟨?_, ?_, ?_⟩
  · intro h0
    simp only [calculatePillarSummaries] at h0 ⊢
    simp [h0]
  · intro h0
    simp only [calculatePillarSummaries] at h0 ⊢
    rw [if_pos (Nat.pos_of_ne_zero h0)]
    exact mathRound100_eq_round _ _ h0
  · simp only [calculatePillarSummaries]
    rw [List.filter_filter]
    exact congrArg (List.map _)
      (List.filter_congr fun a _ => by
        cases a.passed <;> cases a.pillar == p <;> rfl)

/-- C10: when every level has zero checks the empty-level auto-achievement
cascades from L1 upward, so both gate variants return L5 (not none); in
particular the empty check-result list yields L5 through the summarizer and
an empty pillar's result list yields L5 in the pillar gate. -/
theorem c10_all_empty_achieves_L5 :
    (∀ s : Level → LevelSummary, (∀ l, (s l).checks_total = 0) →
      determineAchievedLevelPrev s = some .L5 ∧
      determineAchievedLevelCurr s = some .L5) ∧
    determinePillarLevel [] = some .L5 ∧
    determineAchievedLevelPrev (calculateLevelSummaries []) = some .L5 ∧
    determineAchievedLevelCurr (calculateLevelSummaries []) = some .L5 := by
  refine ⟨?_, by decide, by decide, by decide⟩
  intro s h
  have hok : ∀ (pass : Option Level → Level → Bool) (l : Level),
      stepOk (fun l => (s l).checks_total) pass l :=
    fun pass l => Or.inl (h l)
  constructor
  · rw [determineAchievedLevelPrev, gateWalk_levels_eq,
      if_pos (hok _ _), if_pos (hok _ _), if_pos (hok _ _),
      if_pos (hok _ _), if_pos (hok _ _)]
  · rw [determineAchievedLevelCurr, gateWalk_levels_eq,
      if_pos (hok _ _), if_pos (hok _ _), if_pos (hok _ _),
      if_pos (hok _ _), if_pos (hok _ _)]

/-- C5: the gate is monotonic and sequential: in either variant, if the
walk returns level N then the per-level achievement condition held at N and
at every level below it — the gate never reports a level while a lower
level is unachieved. -/
theorem c5_monotonic_sequential_gate (s : Level → LevelSummary) (N : Level) :
    (determineAchievedLevelPrev s = some N →
      ∀ M, lvlIdx M ≤ lvlIdx N →
        stepOk (fun l => (s l).checks_total) (passPrev s) M) ∧
    (determineAchievedLevelCurr s = some N →
      ∀ M, lvlIdx M ≤ lvlIdx N →
        stepOk (fun l => (s l).checks_total) (passCurr s) M) := by
  constructor
  · intro hr
    exact (okUpTo_iff_forall _ _ _).mp
      ((achievedIn_gateWalk _ _ _).mp ⟨N, hr, le_rfl⟩)
  · intro hr
    exact (okUpTo_iff_forall _ _ _).mp
      ((achievedIn_gateWalk _ _ _).mp ⟨N, hr, le_rfl⟩)

/-- C1: required-check veto: if a level has at least one check and one of
its required checks fails, neither gate variant ever returns that level or
a higher one. -/
theorem c1_required_check_veto (results : List CheckResult) (L : Level)
    (htot : (calculateLevelSummaries results L).checks_total ≠ 0)
    (hreq : (calculateLevelSummaries results L).required_passed <
      (calculateLevelSummaries results L).required_total) :
    (∀ N, determineAchievedLevelPrev (calculateLevelSummaries results) =
      some N → lvlIdx N < lvlIdx L) ∧
    (∀ N, determineAchievedLevelCurr (calculateLevelSummaries results) =
      some N → lvlIdx N < lvlIdx L) := by
  have hb : ((calculateLevelSummaries results L).required_passed ==
      (calculateLevelSummaries results L).required_total) = false :=
    beq_eq_false_iff_ne.mpr (Nat.ne_of_lt hreq)
  have hstep : ∀ pass : Option Level → Level → Bool,
      pass (levelPred L) L = false →
      ∀ N, gateWalk (fun l => (calculateLevelSummaries results l).checks_total)
          pass LEVELS none none = some N →
        lvlIdx N < lvlIdx L := by
    intro pass hp N hr
    by_contra hlt
    push_neg at hlt
    have hok := (okUpTo_iff_forall _ _ _).mp
      ((achievedIn_gateWalk _ _ _).mp ⟨N, hr, hlt⟩) L le_rfl
    rcases hok with h0 | h0
    · exact htot h0
    · rw [hp] at h0
      cases h0
  constructor
  · exact hstep _ (by simp [passPrev, hb])
  · exact hstep _ (by simp [passCurr, hb])

/-- Witness for C1 at a concrete input: one required L1 check that fails,
so the gate returns nothing at or above L1. -/
theorem c1_required_check_veto_witness :
    (calculateLevelSummaries exFail .L1).checks_total ≠ 0 ∧
    (calculateLevelSummaries exFail .L1).required_passed <
      (calculateLevelSummaries exFail .L1).required_total ∧
    (∀ N, determineAchievedLevelPrev (calculateLevelSummaries exFail) =
      some N → lvlIdx N < lvlIdx .L1) :=
  ⟨by decide, by decide,
    (c1_required_check_veto exFail .L1 (by decide) (by decide)).1⟩

/-- C2: the two duplicated gate variants diverge: the first achieves a
non-empty level only when its previous-level gate passes (vacuously for L1
or an empty previous level), the second only when at least 80% of the
level's own checks pass, and the concrete summaries `sDiv` drive them to
different results. -/
theorem c2_divergent_gate_semantics :
    (∀ (s : Level → LevelSummary) (N : Level),
      determineAchievedLevelPrev s = some N → (s N).checks_total ≠ 0 →
      prevGateB s (levelPred N) = true) ∧
    (∀ (s : Level → LevelSummary) (N : Level),
      determineAchievedLevelCurr s = some N → (s N).checks_total ≠ 0 →
      4 * (s N).checks_total ≤ 5 * (s N).checks_passed) ∧
    determineAchievedLevelPrev sDiv ≠ determineAchievedLevelCurr sDiv := by
  refine ⟨?_, ?_, by decide⟩
  · intro s N hr htot
    have hok := (okUpTo_iff_forall _ _ _).mp
      ((achievedIn_gateWalk _ _ _).mp ⟨N, hr, le_rfl⟩) N le_rfl
    rcases hok with h0 | h0
    · exact absurd h0 htot
    · rw [passPrev, Bool.and_eq_true] at h0
      exact h0.2
  · intro s N hr htot
    have hok := (okUpTo_iff_forall _ _ _).mp
      ((achievedIn_gateWalk _ _ _).mp ⟨N, hr, le_rfl⟩) N le_rfl
    rcases hok with h0 | h0
    · exact absurd h0 htot
    · rw [passCurr, Bool.and_eq_true] at h0
      exact of_decide_eq_true h0.2

/-- In any sequential walk, an empty level is achieved exactly when it is
L1 or its predecessor is achieved. -/
theorem achievedIn_empty_level_iff (t : Level → Nat)
    (pass : Option Level → Level → Bool) (L : Level) (ht : t L = 0) :
    achievedIn (gateWalk t pass LEVELS none none) L ↔
      (L = Level.L1 ∨ ∃ P, levelPred L = some P ∧
        achievedIn (gateWalk t pass LEVELS none none) P) := by
  rw [achievedIn_gateWalk, okUpTo_iff_forall]
  cases L
  · constructor
    · intro _
      exact Or.inl rfl
    · intro _ M hM
      cases M <;> first | exact Or.inl ht | exact absurd hM (by decide)
  all_goals
    constructor
    · intro h
      refine Or.inr ⟨_, rfl, ?_⟩
      rw [achievedIn_gateWalk, okUpTo_iff_forall]
      intro M hM
      exact h M (le_trans hM (by decide))
    · rintro (h | ⟨P, hP, h⟩)
      · exact absurd h (by decide)
      · simp only [levelPred, Option.some.injEq] at hP
        subst hP
        rw [achievedIn_gateWalk, okUpTo_iff_forall] at h
        intro M hM
        cases M <;>
          first
          | exact h _ (by decide)
          | exact Or.inl ht
          | exact absurd hM (by decide)

/-- C3: empty-level pass-through in both gate variants: an empty level is
achieved exactly when the previous level is achieved or it is L1; and the
loop body stops without achieving an empty non-L1 level when nothing has
been achieved yet. -/
theorem c3_empty_level_pass_through :
    (∀ (s : Level → LevelSummary) (L : Level), (s L).checks_total = 0 →
      (achievedIn (determineAchievedLevelPrev s) L ↔
        (L = Level.L1 ∨ ∃ P, levelPred L = some P ∧
          achievedIn (determineAchievedLevelPrev s) P)) ∧
      (achievedIn (determineAchievedLevelCurr s) L ↔
        (L = Level.L1 ∨ ∃ P, levelPred L = some P ∧
          achievedIn (determineAchievedLevelCurr s) P))) ∧
    (∀ (t : Level → Nat) (pass : Option Level → Level → Bool) (l : Level)
      (rest : List Level) (prev : Option Level),
      t l = 0 → l ≠ Level.L1 →
      gateWalk t pass (l :: rest) prev none = none) := by
  constructor
  · intro s L h
    exact ⟨achievedIn_empty_level_iff _ _ L h,
      achievedIn_empty_level_iff _ _ L h⟩
  · intro t pass l rest prev ht hne
    have hb : (l == Level.L1) = false := beq_eq_false_iff_ne.mpr hne
    simp [gateWalk, ht, hb]

/-- Level positions determine levels. -/
theorem lvlIdx_inj : ∀ M L : Level, lvlIdx M = lvlIdx L → M = L := by
  intro M L h
  cases M <;> cases L <;> first | rfl | simp [lvlIdx] at h

/-- C4: the 80% comparison is non-strict in all three places it occurs: the
Level Summarizer's local achieved flag holds on a non-empty level exactly
when all required checks pass and the ratio is at least 4/5 (so exactly
80%, e.g. 4 of 5, qualifies and anything below does not); the current-level
gate achieves a non-empty level, all lower levels passing, exactly when its
own ratio is at least 4/5; the previous-level gate achieves it exactly when
the previous level's ratio is at least 4/5. -/
theorem c4_threshold_boundary :
    (∀ (results : List CheckResult) (L : Level),
      (calculateLevelSummaries results L).checks_total ≠ 0 →
      ((calculateLevelSummaries results L).achieved = true ↔
        (calculateLevelSummaries results L).required_passed =
          (calculateLevelSummaries results L).required_total ∧
        (4 : ℚ) / 5 ≤ ((calculateLevelSummaries results L).checks_passed : ℚ) /
          (calculateLevelSummaries results L).checks_total)) ∧
    (∀ (s : Level → LevelSummary) (L : Level),
      (s L).checks_total ≠ 0 →
      (s L).required_passed = (s L).required_total →
      (∀ M, lvlIdx M < lvlIdx L →
        stepOk (fun l => (s l).checks_total) (passCurr s) M) →
      (achievedIn (determineAchievedLevelCurr s) L ↔
        (4 : ℚ) / 5 ≤ ((s L).checks_passed : ℚ) / (s L).checks_total)) ∧
    (∀ (s : Level → LevelSummary) (L P : Level),
      levelPred L = some P →
      (s L).checks_total ≠ 0 →
      (s P).checks_total ≠ 0 →
      (s L).required_passed = (s L).required_total →
      (∀ M, lvlIdx M < lvlIdx L →
        stepOk (fun l => (s l).checks_total) (passPrev s) M) →
      (achievedIn (determineAchievedLevelPrev s) L ↔
        (4 : ℚ) / 5 ≤ ((s P).checks_passed : ℚ) / (s P).checks_total)) := by
  refine ⟨?_, ?_, ?_⟩
  · intro results L htot
    simp only [calculateLevelSummaries] at htot ⊢
    simp only [Bool.and_eq_true, beq_iff_eq, Bool.or_eq_true,
      decide_eq_true_eq]
    constructor
    · rintro ⟨h1, h2 | h2⟩
      · exact absurd h2 htot
      · exact ⟨h1, (ratio_ge_iff _ _ htot).mpr h2⟩
    · rintro ⟨h1, h2⟩
      exact ⟨h1, Or.inr ((ratio_ge_iff _ _ htot).mp h2)⟩
  · intro s L htot hreq hprev
    rw [determineAchievedLevelCurr, achievedIn_gateWalk, okUpTo_iff_forall]
    constructor
    · intro h
      rcases h L le_rfl with h0 | h0
      · exact absurd h0 htot
      · rw [passCurr, hreq] at h0
        simp only [beq_self_eq_true, Bool.true_and, decide_eq_true_eq] at h0
        exact (ratio_ge_iff _ _ htot).mpr h0
    · intro h M hM
      rcases Nat.lt_or_ge (lvlIdx M) (lvlIdx L) with hlt | hge
      · exact hprev M hlt
      · have hML : M = L := lvlIdx_inj M L (Nat.le_antisymm hM hge)
        subst hML
        right
        rw [passCurr, hreq]
        simp only [beq_self_eq_true, Bool.true_and, decide_eq_true_eq]
        exact (ratio_ge_iff _ _ htot).mp h
  · intro s L P hP htot hptot hreq hprev
    rw [determineAchievedLevelPrev, achievedIn_gateWalk, okUpTo_iff_forall]
    constructor
    · intro h
      rcases h L le_rfl with h0 | h0
      · exact absurd h0 htot
      · rw [hP, passPrev, hreq] at h0
        simp only [beq_self_eq_true, Bool.true_and] at h0
        rw [prevGateB, Bool.or_eq_true] at h0
        rcases h0 with h0 | h0
        · rw [beq_iff_eq] at h0
          exact absurd h0 hptot
        · rw [decide_eq_true_eq] at h0
          exact (ratio_ge_iff _ _ hptot).mpr h0
    · intro h M hM
      rcases Nat.lt_or_ge (lvlIdx M) (lvlIdx L) with hlt | hge
      · exact hprev M hlt
      · have hML : M = L := lvlIdx_inj M L (Nat.le_antisymm hM hge)
        subst hML
        right
        rw [hP, passPrev, hreq]
        simp only [beq_self_eq_true, Bool.true_and]
        rw [prevGateB, Bool.or_eq_true]
        exact Or.inr (decide_eq_true ((ratio_ge_iff _ _ hptot).mp h))

/-- The embedded pillar pass condition agrees with the spec's wording. -/
theorem passPillar_true_iff (results : List CheckResult) (M : Level) :
    passPillar results (levelPred M) M = true ↔
      ((∀ r ∈ results, r.level = M → r.required = true → r.passed = true) ∧
        (match levelPred M with
         | none => True
         | some p => countAtLevel results p = 0 ∨
             (4 : ℚ) / 5 ≤ (passedAtLevel results p : ℚ) /
               countAtLevel results p)) := by
  have hreq : ((((results.filter (fun r => r.level == M)).filter
        (fun r => r.required)).filter (fun r => r.passed)).length ==
          ((results.filter (fun r => r.level == M)).filter
            (fun r => r.required)).length) = true ↔
      (∀ r ∈ results, r.level = M → r.required = true → r.passed = true) := by
    rw [beq_iff_eq, List.filter_length_eq_length]
    constructor
    · intro h r hr hlev hrq
      exact h r (List.mem_filter.mpr ⟨List.mem_filter.mpr ⟨hr, by simp [hlev]⟩, hrq⟩)
    · intro h r hr
      have h1 := List.mem_filter.mp hr
      have h2 := List.mem_filter.mp h1.1
      exact h _ h2.1 (by simpa using h2.2) h1.2
  simp only [passPillar]
  rw [Bool.and_eq_true, hreq]
  apply and_congr_right
  intro _
  cases hp : levelPred M with
  | none => simp
  | some p =>
    dsimp only
    rw [Bool.or_eq_true, beq_iff_eq, decide_eq_true_eq, length_filter₂,
      countAtLevel, passedAtLevel,
      show results.countP (fun r => r.level == p) =
          (results.filter (fun r => r.level == p)).length from
        List.countP_eq_length_filter _ _]
    constructor
    · rintro (h0 | h0)
      · exact Or.inl h0
      · by_cases hz : (results.filter (fun r => r.level == p)).length = 0
        · exact Or.inl hz
        · exact Or.inr ((ratio_ge_iff _ _ hz).mpr h0)
    · rintro (h0 | h0)
      · exact Or.inl h0
      · by_cases hz : (results.filter (fun r => r.level == p)).length = 0
        · exact Or.inl hz
        · exact Or.inr ((ratio_ge_iff _ _ hz).mp h0)

/-- C7: the pillar gate of both module copies implements the previous-level
variant: a level is achieved for a pillar exactly when the spec's Variant B
per-level condition (required checks at the level, 80% threshold on the
PREVIOUS level, empty levels passing through) holds at it and at every
level below it. -/
theorem c7_pillar_gate_previous_variant (results : List CheckResult)
    (L : Level) :
    achievedIn (determinePillarLevel results) L ↔
      ∀ M, lvlIdx M ≤ lvlIdx L → pillarStepSpec results M := by
  rw [determinePillarLevel, achievedIn_gateWalk, okUpTo_iff_forall]
  apply forall_congr'
  intro M
  apply imp_congr_right
  intro _
  rw [stepOk, pillarStepSpec, countAtLevel, List.countP_eq_length_filter]
  exact or_congr Iff.rfl (passPillar_true_iff results M)
